import Mathlib

/-!
Shallow embedding of the framing/decoding pipeline and connection fault-state
machine of the rust-mqtt crate (src/io/reader.rs, src/io/body.rs,
src/client/raw/{mod,continuous,net}.rs, src/packet/rx.rs).

Bytes are modelled as `Nat` values below 256; `usize` arithmetic that can wrap
is taken modulo `2 ^ 64` (release-build two's-complement semantics).  The
asynchronous transport is modelled as the list of bytes it will deliver plus a
flag saying whether the stream is closed afterwards: a `read` call returns
`min requested available` bytes, returns `0` when the list is empty and the
stream is closed, and suspends (modelled by a `pending` outcome, the point at
which an external cancellation can drop the future) when the list is empty and
the stream is still open.
-/

namespace RustMqtt

/-- Transport error kinds, modelled after the external `embedded_io::ErrorKind`
values referenced by the sources (`WriteZero`, `NotConnected`, `InvalidData`,
`OutOfMemory`, `Other`). -/
inductive ErrorKind : Type
  | WriteZero
  | NotConnected
  | InvalidData
  | OutOfMemory
  | Other
  deriving DecidableEq, Repr

/-- Modelled from the spec: MQTT reason codes (src/types.rs is not under src/).
Only the codes named by the spec's error classification are listed. -/
inductive ReasonCode : Type
  | MalformedPacket
  | ProtocolError
  | ImplementationSpecificError
  | TopicNameInvalid
  deriving DecidableEq, Repr

/-- Errors of the packet receiver, from `ReaderError` in src/io/reader.rs. -/
inductive ReaderError : Type
  | Read (kind : ErrorKind)
  | EOF
  | InvalidPacketType
  | InvalidVarByteInt
  | BufferExceeded
  deriving DecidableEq, Repr

/-- Modelled from the spec: `PacketType::from_type_and_flags` (src/header.rs is
not under src/).  The spec's own scenarios treat the flag nibble as
unrestricted (`0xD7` is accepted as Pingresp with flags `0x07`), while the type
nibble `0` is the MQTT Reserved type and invalid; so the byte is valid exactly
when its top nibble is nonzero. -/
def from_type_and_flags_ok (b : Nat) : Bool :=
  decide (1 ≤ b / 16)

/-- Modelled from the spec: `VarByteInt::from_slice_unchecked` (src/types.rs is
not under src/).  Per spec §4.1 the low 7 bits of each byte are value bits,
combined least-significant group first. -/
def vbi_from_slice : List Nat → Nat
  | [] => 0
  | b :: rest => b % 128 + 128 * vbi_from_slice rest

/-- Fixed header, from `FixedHeader` in src/header.rs (struct shape given by
spec §3: a type-and-flags byte and a remaining length).  The source stores the
remaining length as a `VarByteInt`; here its numeric value (what
`remaining_len.size()` returns) is stored directly. -/
structure FixedHeader : Type where
  type_and_flags : Nat
  remaining_len : Nat
  deriving DecidableEq, Repr

/-- The receiver state, from `PacketReceiver` in src/io/reader.rs: an optional
in-progress header, the borrowed buffer, and the count of initialized bytes. -/
structure PacketReceiver : Type where
  header : Option FixedHeader
  buf : List Nat
  initialized : Nat
  deriving DecidableEq, Repr

/-- `PacketReceiver::new`. -/
def PacketReceiver.new (buf : List Nat) : PacketReceiver :=
  ⟨none, buf, 0⟩

/-- Token proving a complete header was received, from `PacketDecodeToken`. -/
structure PacketDecodeToken : Type where
  header : FixedHeader
  deriving DecidableEq, Repr

/-- Outcome of one run of an asynchronous receive routine: a returned value, a
returned error, a suspension awaiting transport bytes (the cancellation
point), or undefined behaviour (`unreachable_unchecked` / a slice panic in the
source). -/
inductive Step (α : Type) : Type
  | ok (a : α)
  | err (e : ReaderError)
  | pending
  | ub
  deriving DecidableEq, Repr

/-- Action taken by one iteration of the header loop: continue looping, return
an error, or hit an `unreachable_unchecked`. -/
inductive LoopAct : Type
  | next
  | fail (e : ReaderError)
  | ub
  deriving DecidableEq, Repr

/-- One iteration of the loop body of `PacketReceiver::try_read_header`
(src/io/reader.rs:77-138) after a successful 1-byte read of `b`: write the
byte at offset `initialized`, bump the counter, then validate.  Note that the
branch completing the header stores it and falls through to the next loop
iteration: the source has no `return` there. -/
def stepByte (s : PacketReceiver) (b : Nat) : PacketReceiver × LoopAct :=
  let i := s.initialized
  if 4 < i then (s, .ub)
  else
    let buf' := s.buf.set i b
    if i = 0 then
      if from_type_and_flags_ok b then (⟨s.header, buf', i + 1⟩, .next)
      else (⟨s.header, buf', 0⟩, .fail .InvalidPacketType)
    else if 128 ≤ b then
      if i = 4 then (⟨s.header, buf', 0⟩, .fail .InvalidVarByteInt)
      else (⟨s.header, buf', i + 1⟩, .next)
    else
      let remaining_len := vbi_from_slice ((buf'.drop 1).take i)
      (⟨some ⟨buf'.getD 0 0, remaining_len⟩, buf', 0⟩, .next)

/-- `PacketReceiver::try_read_header`: read one byte at a time from the
transport and feed it to the loop body.  An empty transport yields `EOF` when
the stream is closed (a 0-byte read) and suspends otherwise. -/
def try_read_header (s : PacketReceiver) : List Nat → Bool → PacketReceiver × List Nat × Step Unit
  | [], closed => (s, [], if closed then .err .EOF else .pending)
  | b :: rest, closed =>
    match stepByte s b with
    | (s', .next) => try_read_header s' rest closed
    | (s', .fail e) => (s', rest, .err e)
    | (s', .ub) => (s', rest, .ub)

/-- Write `bytes` into `buf` starting at offset `off` (the effect of a
successful transport read into `buf[off..]`). -/
def listWrite : List Nat → Nat → List Nat → List Nat
  | buf, _, [] => buf
  | buf, off, b :: rest => listWrite (buf.set off b) (off + 1) rest

/-- The body loop of `PacketReceiver::poll` (src/io/reader.rs:64-72): read
into `buf[initialized..remaining_len]` until full; a 0-byte read is `EOF`.
`fuel` bounds the iteration count; each productive iteration reads at least
one byte, so `remaining_len + 1` fuel always suffices and the fuel-exhausted
case (together with `initialized > remaining_len`, where the source's slice
expression panics) is marked `ub`. -/
def pollBodyAux : Nat → PacketReceiver → Nat → List Nat → Bool → PacketReceiver × List Nat × Step Unit
  | 0, s, _, input, _ => (s, input, .ub)
  | _ + 1, s, rlen, [], closed =>
    if s.initialized = rlen then (s, [], .ok ())
    else if closed then (s, [], .err .EOF) else (s, [], .pending)
  | fuel + 1, s, rlen, b :: rest, closed =>
    if s.initialized = rlen then (s, b :: rest, .ok ())
    else if rlen < s.initialized then (s, b :: rest, .ub)
    else
      let k := min (rlen - s.initialized) (b :: rest).length
      let s' : PacketReceiver :=
        ⟨s.header, listWrite s.buf s.initialized ((b :: rest).take k), s.initialized + k⟩
      pollBodyAux fuel s' rlen ((b :: rest).drop k) closed

/-- The part of `PacketReceiver::poll` after the header check: unwrap the
header (`unwrap_unchecked` — `ub` if absent), fail with `BufferExceeded` when
the remaining length exceeds the buffer capacity, then run the body loop and
wrap the header into a token. -/
def poll_after_header (s : PacketReceiver) (input : List Nat) (closed : Bool) :
    PacketReceiver × List Nat × Step PacketDecodeToken :=
  match s.header with
  | none => (s, input, .ub)
  | some h =>
    if s.buf.length < h.remaining_len then (s, input, .err .BufferExceeded)
    else
      match pollBodyAux (h.remaining_len + 1) s h.remaining_len input closed with
      | (s', rest, .ok _) => (s', rest, .ok ⟨h⟩)
      | (s', rest, .err e) => (s', rest, .err e)
      | (s', rest, .pending) => (s', rest, .pending)
      | (s', rest, .ub) => (s', rest, .ub)

/-- `PacketReceiver::poll` (src/io/reader.rs:52-75): run `try_read_header`
when no header is present (propagating its error, suspension or undefined
behaviour; continuing only on its `Ok`), then buffer the body. -/
def poll (s : PacketReceiver) (input : List Nat) (closed : Bool) :
    PacketReceiver × List Nat × Step PacketDecodeToken :=
  match s.header with
  | none =>
    match try_read_header s input closed with
    | (s', rest, .ok _) => poll_after_header s' rest closed
    | (s', rest, .err e) => (s', rest, .err e)
    | (s', rest, .pending) => (s', rest, .pending)
    | (s', rest, .ub) => (s', rest, .ub)
  | some _ => poll_after_header s input closed

/-! ## Packet body decoder (src/io/reader.rs:152-201, src/packet/rx.rs) -/

/-- The `usize` modulus: unchecked arithmetic wraps at `2 ^ 64` in release
builds. -/
def USIZE : Nat := 2 ^ 64

/-- Wrapping `usize` addition. -/
def usizeAdd (a b : Nat) : Nat := (a + b) % USIZE

/-- Wrapping `usize` subtraction. -/
def usizeSub (a b : Nat) : Nat := (a + (USIZE - b % USIZE)) % USIZE

/-- The zero-copy body cursor, from `PacketDecoder` in src/io/reader.rs. -/
structure PacketDecoder : Type where
  header : FixedHeader
  buf : List Nat
  pos : Nat
  deriving DecidableEq, Repr

/-- The error value of the decoder's bounds checks, from
`pub struct InsufficientLen;`. -/
structure InsufficientLen : Type where
  deriving DecidableEq, Repr

/-- `PacketDecoder::new` from a token and the filled buffer slice. -/
def PacketDecoder.new (token : PacketDecodeToken) (buf : List Nat) : PacketDecoder :=
  ⟨token.header, buf, 0⟩

/-- `PacketDecoder::remaining_len` (`self.buf.len() - self.pos`). -/
def PacketDecoder.remaining_len (d : PacketDecoder) : Nat :=
  usizeSub d.buf.length d.pos

/-- `PacketDecoder::skip`: `end = pos + len` (unchecked, wraps); error when
`end` exceeds the buffer length, else `pos += len`.  The mutable receiver is
modelled by returning the post-state next to the result. -/
def PacketDecoder.skip (d : PacketDecoder) (len : Nat) :
    Except InsufficientLen Unit × PacketDecoder :=
  let e := usizeAdd d.pos len
  if d.buf.length < e then (.error ⟨⟩, d)
  else (.ok (), ⟨d.header, d.buf, e⟩)

/-- Result of `PacketDecoder::take_bytes`; `panicked` models the slice
expression `&self.buf[self.pos..end]` with `end < self.pos`. -/
inductive TakeResult : Type
  | ok (bytes : List Nat)
  | insufficientLen
  | panicked
  deriving DecidableEq, Repr

/-- `PacketDecoder::take_bytes`: bounds-checked zero-copy extraction of `len`
bytes starting at `pos`. -/
def PacketDecoder.take_bytes (d : PacketDecoder) (len : Nat) : TakeResult × PacketDecoder :=
  let e := usizeAdd d.pos len
  if d.buf.length < e then (.insufficientLen, d)
  else if e < d.pos then (.panicked, d)
  else (.ok ((d.buf.drop d.pos).take (e - d.pos)), ⟨d.header, d.buf, e⟩)

/-- Errors of packet-specific decoders, from `RxError` in src/packet/rx.rs. -/
inductive RxError : Type
  | InsufficientConstSpace
  | MalformedPacket
  | ProtocolError
  deriving DecidableEq, Repr

/-- The `impl From<InsufficientLen> for RxError` in src/packet/rx.rs:24-28. -/
def RxError.from_insufficient_len (_ : InsufficientLen) : RxError :=
  .MalformedPacket

/-! ## `BodyReader::skip` (src/io/body.rs:150-168) -/

/-- Outcome of the skip loop over the transport. -/
inductive BodyOut : Type
  | ok
  | unexpectedEOF
  | pending
  | ub
  deriving DecidableEq, Repr

/-- The chunked discard loop of `BodyReader::skip`: read up to 16 bytes at a
time from the underlying transport until `missing` bytes were consumed; a
0-byte read is `UnexpectedEOF`.  Each productive iteration consumes at least
one byte, so `missing + 1` fuel suffices. -/
def body_skip_loop : Nat → Nat → List Nat → Bool → List Nat × BodyOut
  | 0, _, input, _ => (input, .ub)
  | _ + 1, 0, input, _ => (input, .ok)
  | fuel + 1, missing + 1, input, closed =>
    match input with
    | [] => if closed then ([], .unexpectedEOF) else ([], .pending)
    | b :: rest =>
      let k := min (min 16 (missing + 1)) (b :: rest).length
      body_skip_loop fuel (missing + 1 - k) ((b :: rest).drop k) closed

/-- `BodyReader::skip`: `self.remaining_len -= len` (unchecked — wraps in a
release build when `len` exceeds the budget; a debug build panics on the
underflow), then discard `len` transport bytes.  Returns the new
`remaining_len`, the rest of the transport, and the outcome. -/
def body_reader_skip (remaining_len len : Nat) (input : List Nat) (closed : Bool) :
    Nat × List Nat × BodyOut :=
  let remaining_len' := usizeSub remaining_len len
  let (rest, out) := body_skip_loop (len + 1) len input closed
  (remaining_len', rest, out)

/-! ## Connection state machine and client orchestration
(src/client/raw/net.rs, src/client/raw/mod.rs, src/client/raw/continuous.rs,
src/client/raw/err.rs) -/

/-- `NetState<N>` from src/client/raw/net.rs: a healthy transport, a faulted
transport retaining a reason code, or a terminated connection. -/
inductive NetState (N : Type) : Type
  | Ok (n : N)
  | Faulted (n : N) (r : ReasonCode)
  | Terminated
  deriving DecidableEq, Repr

/-- The connection-state error from `net::Error` (the generic `Inner` variant
is unused by `get`, which instantiates the error type at `()`). -/
inductive NetStateError : Type
  | Faulted
  | Terminated
  deriving DecidableEq, Repr

/-- `NetState::is_ok`. -/
def NetState.is_ok {N : Type} : NetState N → Bool
  | .Ok _ => true
  | _ => false

/-- `NetState::replace`: unconditionally installs `Ok(net)`. -/
def NetState.replace {N : Type} (_ : NetState N) (net : N) : NetState N :=
  .Ok net

/-- `NetState::get`: the transport when healthy, else the state error. -/
def NetState.get {N : Type} : NetState N → Except NetStateError N
  | .Ok n => .ok n
  | .Faulted _ _ => .error .Faulted
  | .Terminated => .error .Terminated

/-- `NetState::get_reason_code`. -/
def NetState.get_reason_code {N : Type} : NetState N → Option ReasonCode
  | .Ok _ => none
  | .Faulted _ r => some r
  | .Terminated => none

/-- `NetState::fail`: retain the transport (if any) and record the reason. -/
def NetState.fail {N : Type} : NetState N → ReasonCode → NetState N
  | .Ok n, r => .Faulted n r
  | .Faulted n _, r => .Faulted n r
  | .Terminated, _ => .Terminated

/-- `NetState::terminate`: release and return the held transport, moving to
`Terminated`. -/
def NetState.terminate {N : Type} : NetState N → Option N × NetState N
  | .Ok n => (some n, .Terminated)
  | .Faulted n _ => (some n, .Terminated)
  | .Terminated => (none, .Terminated)

/-- `NetState::close_with`. -/
def NetState.close_with {N : Type} (s : NetState N) : Option ReasonCode → NetState N
  | some r => s.fail r
  | none => (s.terminate).2

/-- The client error from `err::Error` in src/client/raw/err.rs (the
feature-gated `Alloc` variant is omitted together with its generic buffer
parameter). -/
inductive RawError : Type
  | PacketTooLong
  | Network (kind : ErrorKind)
  | Disconnected
  | ConstSpace
  | Server
  deriving DecidableEq, Repr

/-- Packet transmit errors as matched exhaustively by
`impl From<TxError<E>> for Error` in src/client/raw/err.rs. -/
inductive TxError : Type
  | Write (kind : ErrorKind)
  | WriteZero
  deriving DecidableEq, Repr

/-- `impl From<TxError<E>> for Error` in src/client/raw/err.rs. -/
def TxError.into_raw : TxError → RawError
  | .Write kind => .Network kind
  | .WriteZero => .Network .WriteZero

/-- `impl From<NetStateError> for Error` in src/client/raw/err.rs. -/
def NetStateError.into_raw : NetStateError → RawError :=
  fun _ => .Disconnected

/-- Transmit errors as matched by `Raw::abort` in src/client/raw/mod.rs:89-93
(the packet module defining this `TxError` is not under src/; the variants are
taken from that match). -/
inductive DisconnectTxError : Type
  | Write (kind : ErrorKind)
  | WriteZero
  | RemainingLenExceeded
  deriving DecidableEq, Repr

/-- Result of calling a routine that may hit a `todo!`, `panic!` or
`unreachable!` in the source. -/
inductive CallOutcome (α : Type) : Type
  | returns (a : α)
  | panics
  deriving DecidableEq, Repr

/-- `Raw::set_net` (src/client/raw/mod.rs:61-67): delegates to
`NetState::replace` after a debug assertion. -/
def Raw.set_net {N : Type} (s : NetState N) (net : N) : NetState N :=
  s.replace net

/-- The condition of the `debug_assert!` guarding `Raw::set_net` (release
builds do not evaluate it). -/
def Raw.set_net_debug_assert {N : Type} (s : NetState N) : Bool :=
  !s.is_ok

/-- `Raw::recv` (src/client/raw/mod.rs:103-111): gates on `NetState::get`
(propagating `Disconnected`), then hits `todo!()` — the receiver call is
commented out in the source. -/
def Raw.recv {N : Type} (s : NetState N) :
    CallOutcome (Except RawError PacketDecodeToken) × NetState N :=
  match s.get with
  | .error e => (.returns (.error e.into_raw), s)
  | .ok _ => (.panics, s)

/-- `Raw::handle_tx` (src/client/raw/continuous.rs:94-102): terminate right
away — after a failed send, sending another (DISCONNECT) packet makes no
sense — and convert the error. -/
def Raw.handle_tx {N : Type} (s : NetState N) (e : TxError) : RawError × NetState N :=
  (e.into_raw, (s.terminate).2)

/-- `Raw::send` (src/client/raw/continuous.rs:104-111): gate on the state,
then run the packet's transmit whose outcome is `res`, applying `handle_tx`
on failure. -/
def Raw.send {N : Type} (s : NetState N) (res : Except TxError Unit) :
    Except RawError Unit × NetState N :=
  match s.get with
  | .error e => (.error e.into_raw, s)
  | .ok _ =>
    match res with
    | .ok _ => (.ok (), s)
    | .error e =>
      let (e', s') := Raw.handle_tx s e
      (.error e', s')

/-- `Raw::abort` (src/client/raw/mod.rs:76-100): take the reason code, then
the transport, and if both were present send a DISCONNECT carrying the reason
on the detached transport (`sendDisc`), translating write failures into
`Network` errors and panicking on the impossible `RemainingLenExceeded`; a
reason code without a transport is the `unreachable!` branch; otherwise
succeed.  The third component records the DISCONNECT attempt (reason and
transport), if any. -/
def Raw.abort {N : Type} (s : NetState N)
    (sendDisc : ReasonCode → N → Except DisconnectTxError Unit) :
    CallOutcome (Except RawError Unit) × NetState N × Option (ReasonCode × N) :=
  let r := s.get_reason_code
  let (n, s') := s.terminate
  match n, r with
  | some n, some rc =>
    (match sendDisc rc n with
     | .ok _ => .returns (.ok ())
     | .error (.Write kind) => .returns (.error (.Network kind))
     | .error .WriteZero => .returns (.error (.Network .WriteZero))
     | .error .RemainingLenExceeded => .panics,
     s', some (rc, n))
  | none, some _ => (.panics, s', none)
  | _, _ => (.returns (.ok ()), s', none)

/-- Deliver header bytes one at a time, each in its own receive call that is
cancelled (the stream stays open and the call suspends) after its byte: the
schedule of spec §8's resumability scenario. -/
def feed_single_bytes : PacketReceiver → List Nat → PacketReceiver
  | s, [] => s
  | s, b :: rest => feed_single_bytes (try_read_header s [b] false).1 rest

/-! ## Helper lemmas -/

theorem try_read_header_cons (s : PacketReceiver) (b : Nat) (rest : List Nat) (closed : Bool) :
    try_read_header s (b :: rest) closed =
      match stepByte s b with
      | (s', .next) => try_read_header s' rest closed
      | (s', .fail e) => (s', rest, .err e)
      | (s', .ub) => (s', rest, .ub) := rfl

theorem stepByte_fail_spec (s : PacketReceiver) (b : Nat) :
    ∀ (s' : PacketReceiver) (e : ReaderError), stepByte s b = (s', .fail e) →
      s'.initialized = 0 ∧ (e = .InvalidPacketType ∨ e = .InvalidVarByteInt) := by
  intro s' e h
  simp only [stepByte] at h
  by_cases h4 : 4 < s.initialized
  · rw [if_pos h4] at h
    simp at h
  · rw [if_neg h4] at h
    by_cases h0 : s.initialized = 0
    · rw [if_pos h0] at h
      by_cases hf : from_type_and_flags_ok b = true
      · rw [if_pos hf] at h
        simp at h
      · rw [if_neg hf] at h
        rw [Prod.mk.injEq] at h
        obtain ⟨h1, h2⟩ := h
        cases h2
        subst h1
        exact ⟨rfl, by simp⟩
    · rw [if_neg h0] at h
      by_cases hc : 128 ≤ b
      · rw [if_pos hc] at h
        by_cases hi : s.initialized = 4
        · rw [if_pos hi] at h
          rw [Prod.mk.injEq] at h
          obtain ⟨h1, h2⟩ := h
          cases h2
          subst h1
          exact ⟨rfl, by simp⟩
        · rw [if_neg hi] at h
          simp at h
      · rw [if_neg hc] at h
        simp at h

theorem try_read_header_err_spec (input : List Nat) :
    ∀ (s : PacketReceiver) (closed : Bool) (e : ReaderError),
      (try_read_header s input closed).2.2 = Step.err e →
      e = .EOF ∨
        ((e = .InvalidPacketType ∨ e = .InvalidVarByteInt) ∧
          (try_read_header s input closed).1.initialized = 0) := by
  induction input with
  | nil =>
    intro s closed e h
    cases closed <;> simp [try_read_header] at h <;> simp [h]
  | cons b rest ih =>
    intro s closed e h
    rcases hsb : stepByte s b with ⟨s', act⟩
    cases act with
    | next =>
      rw [try_read_header_cons, hsb] at h ⊢
      exact ih s' closed e h
    | fail e' =>
      rw [try_read_header_cons, hsb] at h ⊢
      obtain ⟨h0, hcases⟩ := stepByte_fail_spec s b s' e' hsb
      simp at h
      exact Or.inr ⟨h ▸ hcases, h0⟩
    | ub =>
      rw [try_read_header_cons, hsb] at h
      simp at h

theorem try_read_header_ne_ok (input : List Nat) :
    ∀ (s : PacketReceiver) (closed : Bool), (try_read_header s input closed).2.2 ≠ Step.ok () := by
  induction input with
  | nil => intro s closed; cases closed <;> simp [try_read_header]
  | cons b rest ih =>
    intro s closed
    rcases hsb : stepByte s b with ⟨s', act⟩
    cases act <;> rw [try_read_header_cons, hsb] <;> simp
    exact ih s' closed

theorem pollBodyAux_err_eof (fuel : Nat) :
    ∀ (s : PacketReceiver) (rlen : Nat) (input : List Nat) (closed : Bool) (e : ReaderError),
      (pollBodyAux fuel s rlen input closed).2.2 = Step.err e → e = .EOF := by
  induction fuel with
  | zero => intro s rlen input closed e h; simp [pollBodyAux] at h
  | succ fuel ih =>
    intro s rlen input closed e h
    cases input with
    | nil =>
      simp only [pollBodyAux] at h
      split_ifs at h <;> simp_all
    | cons b rest =>
      simp only [pollBodyAux] at h
      by_cases h1 : s.initialized = rlen
      · rw [if_pos h1] at h
        simp at h
      · rw [if_neg h1] at h
        by_cases h2 : rlen < s.initialized
        · rw [if_pos h2] at h
          simp at h
        · rw [if_neg h2] at h
          exact ih _ rlen _ closed e h

theorem try_read_header_resume (xs : List Nat) :
    ∀ (s : PacketReceiver) (ys : List Nat) (closed : Bool),
      (try_read_header s xs false).2.2 = Step.pending →
      try_read_header (try_read_header s xs false).1 ys closed =
        try_read_header s (xs ++ ys) closed := by
  induction xs with
  | nil => intro s ys closed _; rfl
  | cons b xs ih =>
    intro s ys closed h
    rcases hsb : stepByte s b with ⟨s', act⟩
    cases act with
    | next =>
      have e1 : try_read_header s (b :: xs) false = try_read_header s' xs false := by
        rw [try_read_header_cons, hsb]
      have e2 : try_read_header s (b :: xs ++ ys) closed = try_read_header s' (xs ++ ys) closed := by
        rw [List.cons_append, try_read_header_cons, hsb]
      rw [e1] at h ⊢
      rw [e2]
      exact ih s' ys closed h
    | fail e =>
      rw [try_read_header_cons, hsb] at h
      simp at h
    | ub =>
      rw [try_read_header_cons, hsb] at h
      simp at h

theorem feed_single_bytes_eq (bytes : List Nat) :
    ∀ (s : PacketReceiver),
      (try_read_header s bytes false).2.2 = Step.pending →
      feed_single_bytes s bytes = (try_read_header s bytes false).1 := by
  induction bytes with
  | nil => intro s _; rfl
  | cons b rest ih =>
    intro s h
    rcases hsb : stepByte s b with ⟨s', act⟩
    cases act with
    | next =>
      have e1 : try_read_header s (b :: rest) false = try_read_header s' rest false := by
        rw [try_read_header_cons, hsb]
      have e2 : (try_read_header s [b] false).1 = s' := by
        rw [try_read_header_cons, hsb]
        rfl
      rw [e1] at h ⊢
      simp only [feed_single_bytes, e2]
      exact ih s' h
    | fail e =>
      rw [try_read_header_cons, hsb] at h
      simp at h
    | ub =>
      rw [try_read_header_cons, hsb] at h
      simp at h

/-! ## Claim theorems -/

/-- C1: the claim that `PacketReceiver::poll` on a fresh receiver returns a
`PacketDecodeToken` for a valid type byte plus valid length bytes fails on the
code: the header-completing branch of `try_read_header` stores the header but
the loop has no `return` after it, so polling keeps reading.  On the spec's
own scenario `[0x10, 0x00]` (Connect, remaining length 0) the next 1-byte
read hits end-of-stream and `poll` returns `Err(EOF)` — the correctly decoded
header is visible in the final receiver state, yet no token is produced. -/
theorem poll_fresh_connect_eof :
    poll (PacketReceiver.new [0, 0, 0, 0, 0]) [16, 0] true =
      (⟨some ⟨16, 0⟩, [16, 0, 0, 0, 0], 0⟩, [], Step.err .EOF) ∧
    ∀ tok, (poll (PacketReceiver.new [0, 0, 0, 0, 0]) [16, 0] true).2.2 ≠ Step.ok tok := by
  refine ⟨rfl, fun tok h => ?_⟩
  rw [show (poll (PacketReceiver.new [0, 0, 0, 0, 0]) [16, 0] true).2.2 =
        Step.err .EOF from rfl] at h
  exact Step.noConfusion h

/-- C2: cancel-safety of the header receiver.  If a receive call on bytes
`xs` is cancelled while suspended awaiting the transport (outcome `pending`),
the receiver state it left behind resumes with further bytes `ys` to exactly
the same result — state (hence the same `FixedHeader` and buffer contents),
leftover input and outcome — as a single uninterrupted call on `xs ++ ys`;
consequently delivering bytes one at a time across cancelled-and-retried
calls ends in the same receiver state as one uninterrupted delivery. -/
theorem try_read_header_cancel_resume :
    (∀ (xs : List Nat) (s : PacketReceiver) (ys : List Nat) (closed : Bool),
        (try_read_header s xs false).2.2 = Step.pending →
        try_read_header (try_read_header s xs false).1 ys closed =
          try_read_header s (xs ++ ys) closed) ∧
    (∀ (bytes : List Nat) (s : PacketReceiver),
        (try_read_header s bytes false).2.2 = Step.pending →
        feed_single_bytes s bytes = (try_read_header s bytes false).1) :=
  ⟨try_read_header_resume, feed_single_bytes_eq⟩

/-- Witness for the resumability theorem at the spec's scenario bytes
`0xE0 0x80 0x80 0x01`, split as `[0xE0, 0x80]` then `[0x80, 0x01]` and also
delivered one byte per call; the final header is Disconnect with remaining
length 16384. -/
theorem try_read_header_cancel_resume_witness :
    (try_read_header (PacketReceiver.new [0, 0, 0, 0, 0]) [224, 128] false).2.2 =
        Step.pending ∧
    try_read_header (try_read_header (PacketReceiver.new [0, 0, 0, 0, 0]) [224, 128] false).1
        [128, 1] false =
      try_read_header (PacketReceiver.new [0, 0, 0, 0, 0]) ([224, 128] ++ [128, 1]) false ∧
    feed_single_bytes (PacketReceiver.new [0, 0, 0, 0, 0]) [224, 128, 128, 1] =
      (try_read_header (PacketReceiver.new [0, 0, 0, 0, 0]) [224, 128, 128, 1] false).1 ∧
    (try_read_header (PacketReceiver.new [0, 0, 0, 0, 0]) [224, 128, 128, 1] false).1.header =
      some ⟨224, 16384⟩ :=
  ⟨by decide,
   try_read_header_cancel_resume.1 [224, 128] _ [128, 1] false (by decide),
   try_read_header_cancel_resume.2 [224, 128, 128, 1] _ (by decide),
   by decide⟩

/-- C3 counterexample: a hard `EOF` error does not reset `initialized`.  A
fresh receiver fed the single valid type byte `0x10` on a stream that then
closes returns the hard error `EOF` with `initialized = 1`, not 0: the EOF
arm of `try_read_header` returns without touching the counter. -/
theorem try_read_header_eof_keeps_progress :
    (try_read_header (PacketReceiver.new [0, 0, 0, 0, 0]) [16] true).2.2 = Step.err .EOF ∧
    (try_read_header (PacketReceiver.new [0, 0, 0, 0, 0]) [16] true).1.initialized = 1 ∧
    (try_read_header (PacketReceiver.new [0, 0, 0, 0, 0]) [16] true).1.initialized ≠ 0 :=
  ⟨rfl, rfl, by decide⟩

/-- C3 amended: the decode errors `InvalidPacketType` and `InvalidVarByteInt`
always leave `initialized = 0`, and a `BufferExceeded` error leaves the whole
receiver state unchanged (its `initialized` is 0 in any run where the header
was just parsed, since completing the header resets the counter); `EOF`, by
contrast, leaves `initialized` at the count of bytes read so far. -/
theorem reader_hard_error_initialized :
    (∀ (s : PacketReceiver) (input : List Nat) (closed : Bool),
        ((try_read_header s input closed).2.2 = Step.err .InvalidPacketType ∨
          (try_read_header s input closed).2.2 = Step.err .InvalidVarByteInt) →
        (try_read_header s input closed).1.initialized = 0) ∧
    (∀ (s : PacketReceiver) (input : List Nat) (closed : Bool),
        (poll s input closed).2.2 = Step.err .BufferExceeded →
        (poll s input closed).1 = s) := by
  constructor
  · intro s input closed h
    rcases h with h | h
    · rcases try_read_header_err_spec input s closed _ h with h' | h'
      · exact absurd h' (by decide)
      · exact h'.2
    · rcases try_read_header_err_spec input s closed _ h with h' | h'
      · exact absurd h' (by decide)
      · exact h'.2
  · intro s input closed h
    cases hh : s.header with
    | none =>
      simp only [poll, hh] at h ⊢
      rcases ht : try_read_header s input closed with ⟨s', rest, out⟩
      simp only [ht] at h ⊢
      cases out with
      | ok a =>
        cases a
        have hne := try_read_header_ne_ok input s closed
        rw [ht] at hne
        exact absurd rfl hne
      | err e =>
        simp at h
        rcases try_read_header_err_spec input s closed e (by rw [ht]) with h' | h'
        · rw [h] at h'
          exact absurd h' (by decide)
        · rcases h'.1 with h'' | h'' <;> rw [h] at h'' <;> exact absurd h'' (by decide)
      | pending => simp at h
      | ub => simp at h
    | some hd =>
      simp only [poll, hh] at h ⊢
      simp only [poll_after_header, hh] at h ⊢
      by_cases hb : s.buf.length < hd.remaining_len
      · rw [if_pos hb]
      · rw [if_neg hb] at h ⊢
        rcases hp : pollBodyAux (hd.remaining_len + 1) s hd.remaining_len input closed
          with ⟨s', rest, out⟩
        simp only [hp] at h ⊢
        cases out with
        | ok a => simp at h
        | err e =>
          simp at h
          have := pollBodyAux_err_eof (hd.remaining_len + 1) s hd.remaining_len input closed e
            (by rw [hp])
          rw [h] at this
          exact absurd this (by decide)
        | pending => simp at h
        | ub => simp at h

/-- Witness: an invalid variable-byte integer (type byte `0x10` followed by
four continuation bytes) errors with `initialized = 0`. -/
theorem reader_hard_error_initialized_witness :
    (try_read_header (PacketReceiver.new [0, 0, 0, 0, 0]) [16, 128, 128, 128, 128] true).2.2 =
        Step.err .InvalidVarByteInt ∧
    (try_read_header (PacketReceiver.new [0, 0, 0, 0, 0])
        [16, 128, 128, 128, 128] true).1.initialized = 0 :=
  ⟨by decide,
   reader_hard_error_initialized.1 (PacketReceiver.new [0, 0, 0, 0, 0])
     [16, 128, 128, 128, 128] true (Or.inr (by decide))⟩

/-- C4: the claim that `recv()` always returns a value when the state is `Ok`
fails on the code: after gating on `NetState::get`, the body of `Raw::recv`
is `todo!()` (the receiver call is commented out), so with a healthy
transport `recv` panics instead of returning a token or a classified
error. -/
theorem recv_ok_state_panics :
    ∀ (N : Type) (t : N),
      Raw.recv (NetState.Ok t) = (CallOutcome.panics, NetState.Ok t) :=
  fun _ _ => rfl

/-- C5: a transport write failure during `send` while the state is `Ok`
terminates the connection outright — `handle_tx` calls `terminate`, moving to
`Terminated`, which by construction carries no transport and no reason code —
and a subsequent `abort()` on the `Terminated` state sends no DISCONNECT
(third component `none`) and returns success. -/
theorem send_write_failure_terminates :
    ∀ (N : Type) (t : N) (e : TxError)
      (f : ReasonCode → N → Except DisconnectTxError Unit),
      Raw.send (NetState.Ok t) (.error e) = (.error e.into_raw, NetState.Terminated) ∧
      Raw.abort (NetState.Terminated : NetState N) f =
        (.returns (.ok ()), NetState.Terminated, none) :=
  fun _ _ _ _ => ⟨rfl, rfl⟩

/-- C6: `abort()` in a non-`Ok` state: from `Faulted(t, rc)` it sends a
DISCONNECT carrying `rc` on the detached transport `t`, translating a send
failure into the client's `Network` error; from `Terminated` it is a no-op
success with no DISCONNECT; in every case the state afterwards is
`Terminated`. -/
theorem abort_faulted_sends_disconnect :
    ∀ (N : Type) (t : N) (rc : ReasonCode)
      (f : ReasonCode → N → Except DisconnectTxError Unit),
      (f rc t = .ok () →
        Raw.abort (NetState.Faulted t rc) f =
          (.returns (.ok ()), NetState.Terminated, some (rc, t))) ∧
      (∀ kind, f rc t = .error (.Write kind) →
        Raw.abort (NetState.Faulted t rc) f =
          (.returns (.error (.Network kind)), NetState.Terminated, some (rc, t))) ∧
      (f rc t = .error .WriteZero →
        Raw.abort (NetState.Faulted t rc) f =
          (.returns (.error (.Network .WriteZero)), NetState.Terminated, some (rc, t))) ∧
      Raw.abort (NetState.Terminated : NetState N) f =
        (.returns (.ok ()), NetState.Terminated, none) := by
  intro N t rc f
  refine ⟨?_, ?_, ?_, rfl⟩
  · intro h
    simp [Raw.abort, NetState.get_reason_code, NetState.terminate, h]
  · intro kind h
    simp [Raw.abort, NetState.get_reason_code, NetState.terminate, h]
  · intro h
    simp [Raw.abort, NetState.get_reason_code, NetState.terminate, h]

/-- Witness: aborting a `Faulted` connection whose DISCONNECT send fails with
`WriteZero` yields the translated network error, a `Terminated` state, and a
recorded DISCONNECT attempt with the pending reason code. -/
theorem abort_faulted_sends_disconnect_witness :
    Raw.abort (NetState.Faulted 7 ReasonCode.MalformedPacket)
        (fun _ _ => Except.error DisconnectTxError.WriteZero) =
      (.returns (.error (.Network .WriteZero)), NetState.Terminated,
        some (ReasonCode.MalformedPacket, 7)) :=
  (abort_faulted_sends_disconnect Nat 7 .MalformedPacket
      (fun _ _ => .error .WriteZero)).2.2.1 rfl

/-- C7: a fresh receiver fed a valid type byte followed by four length bytes
that all carry the continuation bit rejects the header with
`InvalidVarByteInt` (resetting `initialized` to 0) instead of accepting it or
reading further: the error fires at buffer index 4 and the remaining input is
left unconsumed. -/
theorem header_rejects_four_continuation_bytes :
    ∀ (t b1 b2 b3 b4 : Nat) (rest : List Nat) (closed : Bool),
      from_type_and_flags_ok t = true →
      128 ≤ b1 → 128 ≤ b2 → 128 ≤ b3 → 128 ≤ b4 →
      try_read_header (PacketReceiver.new [0, 0, 0, 0, 0])
          (t :: b1 :: b2 :: b3 :: b4 :: rest) closed =
        (⟨none, [t, b1, b2, b3, b4], 0⟩, rest, Step.err .InvalidVarByteInt) := by
  intro t b1 b2 b3 b4 rest closed ht h1 h2 h3 h4
  have s0 : stepByte (PacketReceiver.new [0, 0, 0, 0, 0]) t =
      (⟨none, [t, 0, 0, 0, 0], 1⟩, .next) := by
    simp [stepByte, PacketReceiver.new, ht, List.set]
  have s1 : stepByte ⟨none, [t, 0, 0, 0, 0], 1⟩ b1 =
      (⟨none, [t, b1, 0, 0, 0], 2⟩, .next) := by
    simp [stepByte, h1, List.set]
  have s2 : stepByte ⟨none, [t, b1, 0, 0, 0], 2⟩ b2 =
      (⟨none, [t, b1, b2, 0, 0], 3⟩, .next) := by
    simp [stepByte, h2, List.set]
  have s3 : stepByte ⟨none, [t, b1, b2, 0, 0], 3⟩ b3 =
      (⟨none, [t, b1, b2, b3, 0], 4⟩, .next) := by
    simp [stepByte, h3, List.set]
  have s4 : stepByte ⟨none, [t, b1, b2, b3, 0], 4⟩ b4 =
      (⟨none, [t, b1, b2, b3, b4], 0⟩, .fail .InvalidVarByteInt) := by
    simp [stepByte, h4, List.set]
  simp only [try_read_header_cons, s0, s1, s2, s3, s4]

/-- Witness: the concrete header bytes `0x10 0x80 0x80 0x80 0x80`. -/
theorem header_rejects_four_continuation_bytes_witness :
    try_read_header (PacketReceiver.new [0, 0, 0, 0, 0]) [16, 128, 128, 128, 128] true =
      (⟨none, [16, 128, 128, 128, 128], 0⟩, [], Step.err .InvalidVarByteInt) :=
  header_rejects_four_continuation_bytes 16 128 128 128 128 [] true (by decide)
    (by decide) (by decide) (by decide) (by decide)

/-- C8: the claim that `BodyReader::skip(len)` with `len` greater than the
remaining-length budget reports an error and never underflows the counter
fails on the code: `skip` performs `self.remaining_len -= len` unchecked, so
with budget 0 and `len = 1` against a transport holding one byte, skip
succeeds and the budget counter wraps to `2^64 - 1` (a debug build panics on
the same underflow). -/
theorem body_skip_underflow :
    body_reader_skip 0 1 [170] true = (2 ^ 64 - 1, [], BodyOut.ok) ∧
    2 ^ 64 - 1 ≠ 0 :=
  ⟨by decide, by decide⟩

/-- C9 counterexample: `skip(len)` is not bounds-correct for every `len`: at
position 1 in a 5-byte body, `skip(2^64 - 1)` wraps `pos + len` to 0, passes
the bounds check and succeeds with the position moved to 0, although
`1 + (2^64 - 1) ≤ 5` is false (the claim requires an `InsufficientLen`
failure there; a debug build panics on the overflowing addition). -/
theorem decoder_skip_wraps :
    PacketDecoder.skip ⟨⟨16, 5⟩, [0, 0, 0, 0, 0], 1⟩ (2 ^ 64 - 1) =
      (.ok (), ⟨⟨16, 5⟩, [0, 0, 0, 0, 0], 0⟩) ∧
    ¬(1 + (2 ^ 64 - 1) ≤ 5) :=
  ⟨rfl, by decide⟩

/-- C9 amended: for every `len` such that `pos + len` does not overflow
`usize`, `take_bytes(len)` and `skip(len)` succeed exactly when
`pos + len ≤ buf.len()`, moving the position to `pos + len` and returning the
`len` bytes starting at `pos`; otherwise both fail with `InsufficientLen`
leaving the decoder unchanged; and `InsufficientLen` converts upward to
`RxError::MalformedPacket`. -/
theorem decoder_take_skip_bounds :
    (∀ (d : PacketDecoder) (len : Nat), d.pos + len < USIZE →
        (d.pos + len ≤ d.buf.length →
            PacketDecoder.skip d len = (.ok (), ⟨d.header, d.buf, d.pos + len⟩) ∧
            PacketDecoder.take_bytes d len =
              (.ok ((d.buf.drop d.pos).take len), ⟨d.header, d.buf, d.pos + len⟩)) ∧
        (d.buf.length < d.pos + len →
            PacketDecoder.skip d len = (.error ⟨⟩, d) ∧
            PacketDecoder.take_bytes d len = (.insufficientLen, d))) ∧
    ∀ i : InsufficientLen, RxError.from_insufficient_len i = .MalformedPacket := by
  constructor
  · intro d len hlt
    have he : usizeAdd d.pos len = d.pos + len := Nat.mod_eq_of_lt hlt
    constructor
    · intro hle
      constructor
      · simp only [PacketDecoder.skip, he]
        rw [if_neg (by omega)]
      · simp only [PacketDecoder.take_bytes, he]
        rw [if_neg (by omega), if_neg (by omega), Nat.add_sub_cancel_left]
    · intro hgt
      constructor
      · simp only [PacketDecoder.skip, he]
        rw [if_pos hgt]
      · simp only [PacketDecoder.take_bytes, he]
        rw [if_pos hgt]
  · intro i
    rfl

/-- Witness: in a 5-byte body, `skip(3)` and `take_bytes(3)` from position 1
succeed, and `take_bytes(4)` from position 3 fails, leaving the decoder
unchanged. -/
theorem decoder_take_skip_bounds_witness :
    PacketDecoder.skip ⟨⟨16, 5⟩, [1, 2, 3, 4, 5], 1⟩ 3 =
        (.ok (), ⟨⟨16, 5⟩, [1, 2, 3, 4, 5], 4⟩) ∧
    PacketDecoder.take_bytes ⟨⟨16, 5⟩, [1, 2, 3, 4, 5], 3⟩ 4 =
        (.insufficientLen, ⟨⟨16, 5⟩, [1, 2, 3, 4, 5], 3⟩) ∧
    RxError.from_insufficient_len ⟨⟩ = .MalformedPacket :=
  ⟨((decoder_take_skip_bounds.1 ⟨⟨16, 5⟩, [1, 2, 3, 4, 5], 1⟩ 3 (by decide)).1 (by decide)).1,
   ((decoder_take_skip_bounds.1 ⟨⟨16, 5⟩, [1, 2, 3, 4, 5], 3⟩ 4 (by decide)).2 (by decide)).2,
   decoder_take_skip_bounds.2 ⟨⟩⟩

/-- C10: `set_net` installs `Ok(new transport)` for every prior state —
including a prior `Ok` holding a live transport, which is silently replaced —
because `NetState::replace` assigns unconditionally; the "must not be Ok"
precondition exists only as the `debug_assert!` condition `!is_ok`, which
release builds do not evaluate. -/
theorem set_net_replaces_unconditionally :
    (∀ (N : Type) (s : NetState N) (net : N), Raw.set_net s net = NetState.Ok net) ∧
    (∀ (N : Type) (s : NetState N), Raw.set_net_debug_assert s = !s.is_ok) :=
  ⟨fun _ _ _ => rfl, fun _ _ => rfl⟩

end RustMqtt
